import Mathlib

/-!
Shallow embedding of the frame-extractor core (`extract_frames` in `app.py`).

The source opens a video handle, checks `isOpened`, reads the reported FPS
(checked against exactly 0), computes
`frame_interval = max(int(fps / frames_per_second), 1)`, creates the output
directory, then loops: read a frame; if `frame_idx % frame_interval == 0`
write it as `frame_{saved_idx:04d}.jpg` (result of the write call is
discarded) and increment `saved_idx`; increment `frame_idx`.  After the loop
it calls `release()` and returns `saved_idx`.  There is no try/finally, so an
exception raised after the handle is opened skips the `release()` call.

The decoder and writer are external collaborators; they are modelled as data:
a `Source` carries whether the open succeeds, the reported frame rate (a
rational, standing for the float; NaN is outside the model) and the list of
decodable frames, and the per-write outcome of the image writer is an oracle
`Nat → WriteOutcome` indexed by the saved-index at the time of the write
(`ok` = returns true, `retFalse` = returns false without raising, `raised` =
raises an exception).  Side effects are recorded as an event trace.
-/

namespace FrameExtractor

/-- Python `int()` applied to a (finite) float value: truncation toward zero,
modelled on the rationals. -/
def truncQ (q : ℚ) : ℤ :=
  if q < 0 then -Rat.floor (-q) else Rat.floor q

/-- `max(int(fps / frames_per_second), 1)` from the source (line 31).  Only
applied after the caller has ruled out `frames_per_second = 0`. -/
def frame_interval (fps : ℚ) (frames_per_second : ℕ) : ℕ :=
  (max (truncQ (fps / (frames_per_second : ℚ))) 1).toNat

/-- Outcome of one call to the external image writer (`cv2.imwrite`): it can
return `true`, return `false` without raising, or raise an exception. -/
inductive WriteOutcome
  | ok
  | retFalse
  | raised
deriving DecidableEq

/-- The error kinds an invocation can raise.  `unreadableSource` and
`unknownFrameRate` are the two `ValueError`s of the source; `zeroDivision` is
Python's `ZeroDivisionError` from `fps / 0`; `writeErr` stands for an
exception propagating out of the image writer. -/
inductive Err
  | unreadableSource
  | unknownFrameRate
  | zeroDivision
  | writeErr
deriving DecidableEq

/-- Observable side effects of one invocation, in program order. -/
inductive Event
  | makedirs
  | readFrame (i : ℕ)
  | writeAttempt (path : String) (data : ℕ)
  | release
deriving DecidableEq

/-- Model of a video source: whether `isOpened()` is true, the frame rate the
container reports, and the sequence of decodable frames (frame pixel data is
abstracted to a natural number). -/
structure Source where
  opens : Bool
  fps : ℚ
  frames : List ℕ
deriving DecidableEq

instance : DecidableEq (Except Err ℕ) := fun
  | Except.ok a, Except.ok b =>
    if h : a = b then isTrue (by rw [h]) else isFalse (by simp [h])
  | Except.error a, Except.error b =>
    if h : a = b then isTrue (by rw [h]) else isFalse (by simp [h])
  | Except.ok _, Except.error _ => isFalse (by simp)
  | Except.error _, Except.ok _ => isFalse (by simp)

/-- Result of one invocation: the returned count or the raised error, the
event trace, and the files actually persisted (path and frame data); a write
that returns `false` persists nothing. -/
structure Outcome where
  result : Except Err ℕ
  events : List Event
  files : List (String × ℕ)
deriving DecidableEq

/-- The decimal digit characters, most significant first (`str` of a
nonnegative integer). -/
def digitChar (d : ℕ) : Char := Char.ofNat (48 + d)

/-- Fuel-driven decimal rendering; the fuel is an upper bound on the
number so that the recursion is structural. -/
def natDigitsAux : ℕ → ℕ → List Char
  | 0, _ => []
  | fuel + 1, n =>
    if n < 10 then [digitChar n]
    else natDigitsAux fuel (n / 10) ++ [digitChar (n % 10)]

/-- Decimal rendering of a natural number as a character list. -/
def natDigits (n : ℕ) : List Char := natDigitsAux (n + 1) n

/-- Python's `{n:04d}`: the decimal digits, left-padded with `'0'` to a
minimum width of 4, growing as needed. -/
def pad4 (n : ℕ) : List Char :=
  List.replicate (4 - (natDigits n).length) '0' ++ natDigits n

/-- `f"frame_{saved_idx:04d}.jpg"` from the source (line 42). -/
def frameName (savedIdx : ℕ) : String :=
  String.mk ("frame_".data ++ pad4 savedIdx ++ ".jpg".data)

/-- `os.path.join(output_folder, name)` for a relative `name`: inserts a
separator unless the directory part is empty or already ends in one. -/
def joinPath (dir name : String) : String :=
  (if dir = "" ∨ dir.data.getLast? = some '/' then dir else dir ++ "/") ++ name

/-- The read/keep/write loop (source lines 35-46).  Arguments: remaining
frames, current `frame_idx`, current `saved_idx`.  Returns the event trace,
the persisted files, and the loop's result: `ok saved_idx` on normal
exhaustion, or `error writeErr` when a write raises (which aborts the whole
call; `saved_idx` is incremented on every kept frame regardless of the
writer's boolean result, which the source discards). -/
def runLoop (out : String) (s : ℕ) (wr : ℕ → WriteOutcome) :
    List ℕ → ℕ → ℕ → List Event × List (String × ℕ) × Except Err ℕ
  | [], _, saved => ([], [], Except.ok saved)
  | f :: rest, idx, saved =>
    if idx % s = 0 then
      let path := joinPath out (frameName saved)
      match wr saved with
      | WriteOutcome.raised =>
        ([Event.readFrame idx, Event.writeAttempt path f], [], Except.error Err.writeErr)
      | WriteOutcome.ok =>
        let r := runLoop out s wr rest (idx + 1) (saved + 1)
        (Event.readFrame idx :: Event.writeAttempt path f :: r.1, (path, f) :: r.2.1, r.2.2)
      | WriteOutcome.retFalse =>
        let r := runLoop out s wr rest (idx + 1) (saved + 1)
        (Event.readFrame idx :: Event.writeAttempt path f :: r.1, r.2.1, r.2.2)
    else
      let r := runLoop out s wr rest (idx + 1) saved
      (Event.readFrame idx :: r.1, r.2.1, r.2.2)

/-- The whole of `extract_frames` (source lines 17-49): open check, fps
check, stride computation (raising `ZeroDivisionError` when the target rate
is 0), directory creation, the loop, and `release()` — which runs only when
the loop finishes normally, since there is no try/finally. -/
def extract_frames (src : Source) (output_folder : String) (frames_per_second : ℕ)
    (wr : ℕ → WriteOutcome) : Outcome :=
  if src.opens = false then
    ⟨Except.error Err.unreadableSource, [], []⟩
  else if src.fps = 0 then
    ⟨Except.error Err.unknownFrameRate, [], []⟩
  else if frames_per_second = 0 then
    ⟨Except.error Err.zeroDivision, [], []⟩
  else
    let s := frame_interval src.fps frames_per_second
    let r := runLoop output_folder s wr src.frames 0 0
    ⟨r.2.2,
     Event.makedirs :: r.1 ++ (if r.2.2.isOk then [Event.release] else []),
     r.2.1⟩

/-- The writer oracle for a run in which every write succeeds. -/
def wrOk : ℕ → WriteOutcome := fun _ => WriteOutcome.ok

/-- Number of kept read-positions among the next `n` positions starting at
`idx`, for stride `s`: those positions `p` with `p % s = 0`. -/
def countKept (s : ℕ) : ℕ → ℕ → ℕ
  | 0, _ => 0
  | n + 1, idx => (if idx % s = 0 then 1 else 0) + countKept s n (idx + 1)

/-! ### Elementary facts about the stride computation -/

theorem ratFloor_eq_intFloor (q : ℚ) : Rat.floor q = ⌊q⌋ := by
  rw [Rat.floor_def', Rat.floor_def]

theorem truncQ_eq_floor {q : ℚ} (h : 0 ≤ q) : truncQ q = ⌊q⌋ := by
  rw [truncQ, if_neg (not_lt.2 h), ratFloor_eq_intFloor]

theorem one_le_frame_interval (fps : ℚ) (T : ℕ) : 1 ≤ frame_interval fps T := by
  have h : (1 : ℤ) ≤ max (truncQ (fps / (T : ℚ))) 1 := le_max_right _ _
  unfold frame_interval
  omega

theorem frame_interval_eq_floor {fps : ℚ} {T : ℕ} (hfps : 0 ≤ fps) :
    frame_interval fps T = (max ⌊fps / (T : ℚ)⌋ 1).toNat := by
  have hq : 0 ≤ fps / (T : ℚ) := div_nonneg hfps (by positivity)
  rw [frame_interval, truncQ_eq_floor hq]

theorem frame_interval_natCast (a T : ℕ) :
    frame_interval ((a : ℕ) : ℚ) T = max (a / T) 1 := by
  rw [frame_interval_eq_floor (by positivity), Rat.floor_natCast_div_natCast]
  omega

theorem frame_interval_eq_one {fps : ℚ} {T : ℕ} (hfps : 0 < fps)
    (hT : fps ≤ (T : ℚ)) : frame_interval fps T = 1 := by
  have hT0 : (0 : ℚ) < (T : ℚ) := lt_of_lt_of_le hfps hT
  have hq1 : fps / (T : ℚ) ≤ 1 := (div_le_one hT0).2 hT
  have hfl : ⌊fps / (T : ℚ)⌋ ≤ 1 := by
    calc ⌊fps / (T : ℚ)⌋ ≤ ⌊(1 : ℚ)⌋ := Int.floor_le_floor hq1
    _ = 1 := Int.floor_one
  rw [frame_interval_eq_floor (le_of_lt hfps)]
  omega

/-! ### The ceiling-division count of kept positions -/

theorem ceil_step {s : ℕ} (hs : 0 < s) (idx : ℕ) :
    (idx + 1 + s - 1) / s = (idx + s - 1) / s + (if idx % s = 0 then 1 else 0) := by
  obtain ⟨q, r, hidx, hr⟩ : ∃ q r, idx = s * q + r ∧ r < s :=
    ⟨idx / s, idx % s, by rw [Nat.div_add_mod], Nat.mod_lt _ hs⟩
  have hmod : idx % s = r := by
    rw [hidx, Nat.mul_add_mod, Nat.mod_eq_of_lt hr]
  rcases Nat.eq_zero_or_pos r with hr0 | hrpos
  · subst hr0
    have h1 : idx + 1 + s - 1 = s * q + s := by omega
    have h2 : idx + s - 1 = s * q + (s - 1) := by omega
    rw [hmod, if_pos rfl, h1, h2, Nat.mul_add_div hs, Nat.mul_add_div hs,
      Nat.div_self hs, Nat.div_eq_of_lt (by omega)]
  · have h1 : idx + 1 + s - 1 = s * q + (r + s) := by omega
    have h2 : idx + s - 1 = s * q + (r - 1 + s) := by omega
    have h3 : (r + s) / s = 1 := by
      rw [Nat.add_div_right _ hs, Nat.div_eq_of_lt hr]
    have h4 : (r - 1 + s) / s = 1 := by
      rw [Nat.add_div_right _ hs, Nat.div_eq_of_lt (by omega)]
    rw [hmod, if_neg (by omega), h1, h2, Nat.mul_add_div hs, Nat.mul_add_div hs, h3, h4]

theorem countKept_add_ceil {s : ℕ} (hs : 0 < s) :
    ∀ (n idx : ℕ), countKept s n idx + (idx + s - 1) / s = (idx + n + s - 1) / s := by
  intro n
  induction n with
  | zero => intro idx; simp [countKept]
  | succ n ih =>
    intro idx
    have h := ih (idx + 1)
    rw [countKept]
    have hstep := ceil_step hs idx
    have e : idx + (n + 1) = idx + 1 + n := by omega
    rw [e]
    omega

theorem countKept_eq_ceil {s : ℕ} (hs : 0 < s) (n : ℕ) :
    countKept s n 0 = (n + s - 1) / s := by
  have h := countKept_add_ceil hs n 0
  simp only [Nat.zero_add] at h
  have h0 : (s - 1) / s = 0 := Nat.div_eq_of_lt (by omega)
  omega

/-! ### Behaviour of the read/keep/write loop -/

theorem runLoop_result (out : String) (s : ℕ) (wr : ℕ → WriteOutcome)
    (hwr : ∀ j, wr j ≠ WriteOutcome.raised) :
    ∀ (l : List ℕ) (idx saved : ℕ),
      (runLoop out s wr l idx saved).2.2 = Except.ok (saved + countKept s l.length idx) := by
  intro l
  induction l with
  | nil => intro idx saved; simp [runLoop, countKept]
  | cons f rest ih =>
    intro idx saved
    rw [runLoop]
    by_cases h : idx % s = 0
    · rw [if_pos h]
      cases hw : wr saved with
      | raised => exact absurd hw (hwr saved)
      | ok =>
        simp only [ih (idx + 1) (saved + 1)]
        rw [List.length_cons, countKept, if_pos h]
        exact congrArg Except.ok (by omega)
      | retFalse =>
        simp only [ih (idx + 1) (saved + 1)]
        rw [List.length_cons, countKept, if_pos h]
        exact congrArg Except.ok (by omega)
    · rw [if_neg h]
      simp only [ih (idx + 1) saved]
      rw [List.length_cons, countKept, if_neg h]
      exact congrArg Except.ok (by omega)

theorem runLoop_error (out : String) (s : ℕ) (wr : ℕ → WriteOutcome) :
    ∀ (l : List ℕ) (idx saved : ℕ) (e : Err),
      (runLoop out s wr l idx saved).2.2 = Except.error e → e = Err.writeErr := by
  intro l
  induction l with
  | nil => intro idx saved e h; simp [runLoop] at h
  | cons f rest ih =>
    intro idx saved e h
    rw [runLoop] at h
    by_cases hk : idx % s = 0
    · rw [if_pos hk] at h
      cases hw : wr saved with
      | raised => rw [hw] at h; simp at h; exact h.symm
      | ok => rw [hw] at h; exact ih (idx + 1) (saved + 1) e h
      | retFalse => rw [hw] at h; exact ih (idx + 1) (saved + 1) e h
    · rw [if_neg hk] at h
      exact ih (idx + 1) saved e h

theorem runLoop_no_release (out : String) (s : ℕ) (wr : ℕ → WriteOutcome) :
    ∀ (l : List ℕ) (idx saved : ℕ), Event.release ∉ (runLoop out s wr l idx saved).1 := by
  intro l
  induction l with
  | nil => intro idx saved; simp [runLoop]
  | cons f rest ih =>
    intro idx saved
    rw [runLoop]
    by_cases hk : idx % s = 0
    · rw [if_pos hk]
      cases hw : wr saved with
      | raised => simp
      | ok => simp [ih (idx + 1) (saved + 1)]
      | retFalse => simp [ih (idx + 1) (saved + 1)]
    · rw [if_neg hk]
      simp [ih (idx + 1) saved]

theorem runLoop_files_fst (out : String) (s : ℕ) :
    ∀ (l : List ℕ) (idx saved : ℕ),
      (runLoop out s wrOk l idx saved).2.1.map Prod.fst =
        (List.range (countKept s l.length idx)).map
          (fun k => joinPath out (frameName (saved + k))) := by
  intro l
  induction l with
  | nil => intro idx saved; simp [runLoop, countKept]
  | cons f rest ih =>
    intro idx saved
    rw [runLoop]
    by_cases h : idx % s = 0
    · rw [if_pos h]
      show joinPath out (frameName saved) ::
          (runLoop out s wrOk rest (idx + 1) (saved + 1)).2.1.map Prod.fst = _
      rw [ih (idx + 1) (saved + 1), List.length_cons, countKept, if_pos h,
        Nat.add_comm 1 (countKept s rest.length (idx + 1)), List.range_succ_eq_map,
        List.map_cons, List.map_map]
      congr 1
      apply List.map_congr_left
      intro a _
      simp only [Function.comp_apply]
      have e : saved + Nat.succ a = saved + 1 + a := by omega
      rw [e]
    · rw [if_neg h]
      show (runLoop out s wrOk rest (idx + 1) saved).2.1.map Prod.fst = _
      rw [ih (idx + 1) saved, List.length_cons, countKept, if_neg h, Nat.zero_add]

theorem runLoop_files_snd (out : String) (s : ℕ) :
    ∀ (l : List ℕ) (idx saved : ℕ),
      (runLoop out s wrOk l idx saved).2.1.map Prod.snd =
        ((List.enumFrom idx l).filter (fun p => p.1 % s == 0)).map Prod.snd := by
  intro l
  induction l with
  | nil => intro idx saved; simp [runLoop]
  | cons f rest ih =>
    intro idx saved
    rw [runLoop]
    by_cases h : idx % s = 0
    · rw [if_pos h]
      show f :: (runLoop out s wrOk rest (idx + 1) (saved + 1)).2.1.map Prod.snd = _
      rw [ih (idx + 1) (saved + 1), List.enumFrom_cons, List.filter_cons]
      simp [h]
    · rw [if_neg h]
      show (runLoop out s wrOk rest (idx + 1) saved).2.1.map Prod.snd = _
      rw [ih (idx + 1) saved, List.enumFrom_cons, List.filter_cons]
      simp [h]

/-! ### Behaviour of the whole extraction call -/

theorem extract_frames_loop_case {src : Source} {out : String} {T : ℕ}
    {wr : ℕ → WriteOutcome} (h1 : src.opens = true) (h2 : src.fps ≠ 0) (h3 : T ≠ 0) :
    extract_frames src out T wr =
      ⟨(runLoop out (frame_interval src.fps T) wr src.frames 0 0).2.2,
       Event.makedirs :: (runLoop out (frame_interval src.fps T) wr src.frames 0 0).1 ++
         (if (runLoop out (frame_interval src.fps T) wr src.frames 0 0).2.2.isOk
          then [Event.release] else []),
       (runLoop out (frame_interval src.fps T) wr src.frames 0 0).2.1⟩ := by
  rw [extract_frames, if_neg (by simp [h1]), if_neg h2, if_neg h3]

theorem extract_result_ok {src : Source} {out : String} {T : ℕ} {wr : ℕ → WriteOutcome}
    (h1 : src.opens = true) (h2 : src.fps ≠ 0) (h3 : T ≠ 0)
    (hwr : ∀ j, wr j ≠ WriteOutcome.raised) :
    (extract_frames src out T wr).result =
      Except.ok (countKept (frame_interval src.fps T) src.frames.length 0) := by
  rw [extract_frames_loop_case h1 h2 h3]
  show (runLoop out (frame_interval src.fps T) wr src.frames 0 0).2.2 = _
  rw [runLoop_result _ _ _ hwr, Nat.zero_add]

theorem extract_files_fst {src : Source} {out : String} {T : ℕ}
    (h1 : src.opens = true) (h2 : src.fps ≠ 0) (h3 : T ≠ 0) :
    (extract_frames src out T wrOk).files.map Prod.fst =
      (List.range (countKept (frame_interval src.fps T) src.frames.length 0)).map
        (fun k => joinPath out (frameName k)) := by
  rw [extract_frames_loop_case h1 h2 h3]
  show (runLoop out (frame_interval src.fps T) wrOk src.frames 0 0).2.1.map Prod.fst = _
  rw [runLoop_files_fst]
  apply List.map_congr_left
  intro a _
  rw [Nat.zero_add]

theorem extract_files_snd {src : Source} {out : String} {T : ℕ}
    (h1 : src.opens = true) (h2 : src.fps ≠ 0) (h3 : T ≠ 0) :
    (extract_frames src out T wrOk).files.map Prod.snd =
      ((List.enumFrom 0 src.frames).filter
        (fun p => p.1 % frame_interval src.fps T == 0)).map Prod.snd := by
  rw [extract_frames_loop_case h1 h2 h3]
  show (runLoop out (frame_interval src.fps T) wrOk src.frames 0 0).2.1.map Prod.snd = _
  rw [runLoop_files_snd]

theorem extract_not_opened {src : Source} {out : String} {T : ℕ}
    {wr : ℕ → WriteOutcome} (h : src.opens = false) :
    extract_frames src out T wr = ⟨Except.error Err.unreadableSource, [], []⟩ := by
  rw [extract_frames, if_pos h]

theorem extract_zero_fps {src : Source} {out : String} {T : ℕ}
    {wr : ℕ → WriteOutcome} (h1 : src.opens = true) (h : src.fps = 0) :
    extract_frames src out T wr = ⟨Except.error Err.unknownFrameRate, [], []⟩ := by
  rw [extract_frames, if_neg (by simp [h1]), if_pos h]

theorem extract_zero_target {src : Source} {out : String}
    {wr : ℕ → WriteOutcome} (h1 : src.opens = true) (h : src.fps ≠ 0) :
    extract_frames src out 0 wr = ⟨Except.error Err.zeroDivision, [], []⟩ := by
  rw [extract_frames, if_neg (by simp [h1]), if_neg h, if_pos rfl]

theorem extract_error_clean {src : Source} {out : String} {T : ℕ}
    {wr : ℕ → WriteOutcome} {e : Err} (he : e ≠ Err.writeErr)
    (h : (extract_frames src out T wr).result = Except.error e) :
    (extract_frames src out T wr).events = [] ∧
      (extract_frames src out T wr).files = [] := by
  by_cases c1 : src.opens = false
  · simp [extract_frames, c1]
  · by_cases c2 : src.fps = 0
    · simp [extract_frames, c1, c2]
    · by_cases c3 : T = 0
      · simp [extract_frames, c1, c2, c3]
      · exfalso
        rw [extract_frames_loop_case (by simpa using c1) c2 c3] at h
        exact he (runLoop_error _ _ _ _ _ _ _ h)

theorem extract_release_iff (src : Source) (out : String) (T : ℕ)
    (wr : ℕ → WriteOutcome) :
    Event.release ∈ (extract_frames src out T wr).events ↔
      ∃ k, (extract_frames src out T wr).result = Except.ok k := by
  by_cases c1 : src.opens = false
  · simp [extract_frames, c1]
  · by_cases c2 : src.fps = 0
    · simp [extract_frames, c1, c2]
    · by_cases c3 : T = 0
      · simp [extract_frames, c1, c2, c3]
      · rw [extract_frames_loop_case (by simpa using c1) c2 c3]
        cases hr : (runLoop out (frame_interval src.fps T) wr src.frames 0 0).2.2 with
        | ok k =>
          constructor
          · intro _
            exact ⟨k, rfl⟩
          · intro _
            show Event.release ∈ Event.makedirs ::
              (runLoop out (frame_interval src.fps T) wr src.frames 0 0).1 ++
                (if (Except.ok k : Except Err ℕ).isOk = true then [Event.release] else [])
            rw [if_pos (show (Except.ok k : Except Err ℕ).isOk = true from rfl)]
            exact List.mem_cons_of_mem _ (List.mem_append_right _ (by simp))
        | error e =>
          constructor
          · intro hmem
            exfalso
            replace hmem : Event.release ∈ Event.makedirs ::
                (runLoop out (frame_interval src.fps T) wr src.frames 0 0).1 ++
                  (if (Except.error e : Except Err ℕ).isOk = true
                   then [Event.release] else []) := hmem
            have hnil : (if (Except.error e : Except Err ℕ).isOk = true
                then [Event.release] else []) = [] := by
              simp [Except.isOk, Except.toBool]
            rw [hnil, List.append_nil] at hmem
            rcases List.mem_cons.1 hmem with h | h
            · exact Event.noConfusion h
            · exact runLoop_no_release _ _ _ _ _ _ h
          · intro hex
            obtain ⟨k, hk⟩ := hex
            replace hk : (Except.error e : Except Err ℕ) = Except.ok k := hk
            exact Except.noConfusion hk

/-! ### Decimal rendering and lexicographic order of the produced names -/

theorem natDigitsAux_congr :
    ∀ (n f1 f2 : ℕ), n < f1 → n < f2 → natDigitsAux f1 n = natDigitsAux f2 n := by
  intro n
  induction n using Nat.strong_induction_on with
  | _ n ih =>
    intro f1 f2 h1 h2
    cases f1 with
    | zero => omega
    | succ g1 =>
      cases f2 with
      | zero => omega
      | succ g2 =>
        simp only [natDigitsAux]
        by_cases h : n < 10
        · rw [if_pos h, if_pos h]
        · rw [if_neg h, if_neg h]
          have hdiv : n / 10 < n := Nat.div_lt_self (by omega) (by omega)
          rw [ih (n / 10) hdiv g1 g2 (by omega) (by omega)]

theorem natDigits_lt10 {n : ℕ} (h : n < 10) : natDigits n = [digitChar n] := by
  show (if n < 10 then [digitChar n]
    else natDigitsAux n (n / 10) ++ [digitChar (n % 10)]) = [digitChar n]
  rw [if_pos h]

theorem natDigits_ge10 {n : ℕ} (h : 10 ≤ n) :
    natDigits n = natDigits (n / 10) ++ [digitChar (n % 10)] := by
  have hdiv : n / 10 < n := Nat.div_lt_self (by omega) (by omega)
  show (if n < 10 then [digitChar n]
    else natDigitsAux n (n / 10) ++ [digitChar (n % 10)]) = _
  rw [if_neg (by omega),
    natDigitsAux_congr (n / 10) n (n / 10 + 1) hdiv (Nat.lt_succ_self _)]
  rfl

theorem pad4_eq {n : ℕ} (h : n < 10000) :
    pad4 n = [digitChar (n / 1000), digitChar (n / 100 % 10),
              digitChar (n / 10 % 10), digitChar (n % 10)] := by
  rw [pad4]
  by_cases h1 : n < 10
  · rw [natDigits_lt10 h1]
    have e1 : n / 1000 = 0 := by omega
    have e2 : n / 100 % 10 = 0 := by omega
    have e3 : n / 10 % 10 = 0 := by omega
    have e4 : n % 10 = n := by omega
    rw [e1, e2, e3, e4, show '0' = digitChar 0 from by decide]
    rfl
  · by_cases h2 : n < 100
    · rw [natDigits_ge10 (by omega), natDigits_lt10 (show n / 10 < 10 by omega)]
      have e1 : n / 1000 = 0 := by omega
      have e2 : n / 100 % 10 = 0 := by omega
      have e3 : n / 10 % 10 = n / 10 := by omega
      rw [e1, e2, e3, show '0' = digitChar 0 from by decide]
      rfl
    · by_cases h3 : n < 1000
      · rw [natDigits_ge10 (by omega), natDigits_ge10 (show 10 ≤ n / 10 by omega),
          natDigits_lt10 (show n / 10 / 10 < 10 by omega)]
        have e1 : n / 1000 = 0 := by omega
        have e2 : n / 10 / 10 = n / 100 % 10 := by omega
        have e3 : n / 10 % 10 = n / 10 % 10 := rfl
        rw [e1, e2, show '0' = digitChar 0 from by decide]
        rfl
      · rw [natDigits_ge10 (by omega), natDigits_ge10 (show 10 ≤ n / 10 by omega),
          natDigits_ge10 (show 10 ≤ n / 10 / 10 by omega),
          natDigits_lt10 (show n / 10 / 10 / 10 < 10 by omega)]
        have e1 : n / 10 / 10 / 10 = n / 1000 := by omega
        have e2 : n / 10 / 10 % 10 = n / 100 % 10 := by omega
        rw [e1, e2]
        rfl

theorem digitChar_lt {d e : ℕ} (hd : d < 10) (he : e < 10) (h : d < e) :
    digitChar d < digitChar e := by
  interval_cases d <;> interval_cases e <;> first | omega | decide

theorem listlt_append_left (pre : List Char) {as bs : List Char}
    (h : List.Lex (· < ·) as bs) : List.Lex (· < ·) (pre ++ as) (pre ++ bs) := by
  induction pre with
  | nil => exact h
  | cons c cs ih => exact List.Lex.cons ih

theorem fourDigits_lt {a b : ℕ} (hab : a < b) (hb : b < 10000) (sfx : List Char) :
    List.Lex (· < ·)
      (digitChar (a / 1000) :: digitChar (a / 100 % 10) ::
        digitChar (a / 10 % 10) :: digitChar (a % 10) :: sfx)
      (digitChar (b / 1000) :: digitChar (b / 100 % 10) ::
        digitChar (b / 10 % 10) :: digitChar (b % 10) :: sfx) := by
  have ha : a < 10000 := lt_trans hab hb
  rcases Nat.lt_or_ge (a / 1000) (b / 1000) with h3 | h3
  · exact List.Lex.rel (digitChar_lt (by omega) (by omega) h3)
  · have e3 : a / 1000 = b / 1000 := by omega
    rw [e3]
    refine List.Lex.cons ?_
    rcases Nat.lt_or_ge (a / 100 % 10) (b / 100 % 10) with h2 | h2
    · exact List.Lex.rel (digitChar_lt (by omega) (by omega) h2)
    · have e2 : a / 100 % 10 = b / 100 % 10 := by omega
      rw [e2]
      refine List.Lex.cons ?_
      rcases Nat.lt_or_ge (a / 10 % 10) (b / 10 % 10) with h1 | h1
      · exact List.Lex.rel (digitChar_lt (by omega) (by omega) h1)
      · have e1 : a / 10 % 10 = b / 10 % 10 := by omega
        rw [e1]
        exact List.Lex.cons (List.Lex.rel (digitChar_lt (by omega) (by omega) (by omega)))

theorem frameName_lt {a b : ℕ} (hab : a < b) (hb : b < 10000) :
    frameName a < frameName b := by
  rw [String.lt_iff_toList_lt]
  show List.Lex (· < ·) ("frame_".data ++ pad4 a ++ ".jpg".data)
    ("frame_".data ++ pad4 b ++ ".jpg".data)
  rw [List.append_assoc, List.append_assoc]
  apply listlt_append_left
  rw [pad4_eq (lt_trans hab hb), pad4_eq hb]
  simp only [List.cons_append, List.nil_append]
  exact fourDigits_lt hab hb _

theorem joinPath_lt {dir x y : String} (h : x < y) : joinPath dir x < joinPath dir y := by
  have h' : List.Lex (· < ·) x.data y.data := String.lt_iff_toList_lt.1 h
  rw [joinPath, joinPath, String.lt_iff_toList_lt]
  show List.Lex (· < ·)
    ((if dir = "" ∨ dir.data.getLast? = some '/' then dir else dir ++ "/") ++ x).data
    ((if dir = "" ∨ dir.data.getLast? = some '/' then dir else dir ++ "/") ++ y).data
  rw [String.data_append, String.data_append]
  exact listlt_append_left _ h'

theorem names_pairwise (out : String) {m : ℕ} (hm : m ≤ 10000) :
    ((List.range m).map (fun k => joinPath out (frameName k))).Pairwise (· < ·) := by
  rw [List.pairwise_map]
  apply List.Pairwise.imp_of_mem (l := List.range m)
    (R := fun i j => i < j ∧ j < m)
  · intro a b _ _ hij
    exact joinPath_lt (frameName_lt hij.1 (lt_of_lt_of_le hij.2 hm))
  · rw [List.pairwise_iff_get]
    intro i j hij
    rw [List.get_range, List.get_range]
    have hj : (j : ℕ) < m :=
      lt_of_lt_of_le j.isLt (le_of_eq (List.length_range m))
    exact ⟨hij, hj⟩

theorem wrOk_ne_raised : ∀ j, wrOk j ≠ WriteOutcome.raised :=
  fun _ h => WriteOutcome.noConfusion h

/-! ### The claims -/

/-- **C1.** For every video source that opens with nominal frame rate `R > 0`
and target rate `T ≥ 1` containing `total_frames` decodable frames (every
write succeeding), the call returns
`saved_count = ceil(total_frames / stride)` — rendered as
`(total_frames + stride - 1) / stride` — when `total_frames > 0`, and `0`
when `total_frames = 0`, where `stride = max ⌊R / T⌋ 1`; and the kept frames
are exactly those whose read-position `i` satisfies `i % stride == 0`. -/
theorem C1_saved_count_and_kept_frames (src : Source) (out : String) (T : ℕ)
    (h1 : src.opens = true) (hR : 0 < src.fps) (hT : 1 ≤ T) :
    (extract_frames src out T wrOk).result =
        Except.ok ((src.frames.length + (max ⌊src.fps / (T : ℚ)⌋ 1).toNat - 1) /
          (max ⌊src.fps / (T : ℚ)⌋ 1).toNat) ∧
      (src.frames.length = 0 → (extract_frames src out T wrOk).result = Except.ok 0) ∧
      (extract_frames src out T wrOk).files.map Prod.snd =
        ((List.enumFrom 0 src.frames).filter
          (fun p => p.1 % (max ⌊src.fps / (T : ℚ)⌋ 1).toNat == 0)).map Prod.snd := by
  have hf0 : src.fps ≠ 0 := ne_of_gt hR
  have hT0 : T ≠ 0 := by omega
  have hfi : frame_interval src.fps T = (max ⌊src.fps / (T : ℚ)⌋ 1).toNat :=
    frame_interval_eq_floor (le_of_lt hR)
  have hs : 0 < frame_interval src.fps T := one_le_frame_interval src.fps T
  refine ⟨?_, ?_, ?_⟩
  · rw [extract_result_ok h1 hf0 hT0 wrOk_ne_raised, countKept_eq_ceil hs, hfi]
  · intro h0
    rw [extract_result_ok h1 hf0 hT0 wrOk_ne_raised, h0]
    rfl
  · rw [extract_files_snd h1 hf0 hT0, hfi]

/-- **C1 witness.** Nominal rate 30, target rate 1, 90 frames (of pixel value
5): stride 30, three frames saved, exactly the data at read-positions 0, 30
and 60. -/
theorem C1_witness :
    (extract_frames ⟨true, ((30 : ℕ) : ℚ), List.replicate 90 5⟩ "o" 1 wrOk).result =
        Except.ok 3 ∧
      (extract_frames ⟨true, ((30 : ℕ) : ℚ), List.replicate 90 5⟩ "o" 1 wrOk).files.map
          Prod.snd = [5, 5, 5] := by
  obtain ⟨ha, _, hc⟩ := C1_saved_count_and_kept_frames
    ⟨true, ((30 : ℕ) : ℚ), List.replicate 90 5⟩ "o" 1 rfl (by positivity) (by omega)
  have hfl : ⌊((30 : ℕ) : ℚ) / ((1 : ℕ) : ℚ)⌋ = 30 := by
    rw [Rat.floor_natCast_div_natCast]
    decide
  constructor
  · rw [ha]
    show Except.ok (((List.replicate 90 (5 : ℕ)).length +
        (max ⌊((30 : ℕ) : ℚ) / ((1 : ℕ) : ℚ)⌋ 1).toNat - 1) /
          (max ⌊((30 : ℕ) : ℚ) / ((1 : ℕ) : ℚ)⌋ 1).toNat) = _
    rw [hfl]
    decide
  · rw [hc]
    show ((List.enumFrom 0 (List.replicate 90 (5 : ℕ))).filter
        (fun p => p.1 % (max ⌊((30 : ℕ) : ℚ) / ((1 : ℕ) : ℚ)⌋ 1).toNat == 0)).map
          Prod.snd = _
    rw [hfl]
    decide

/-- **C2.** For every nominal rate `R > 0` and target rate `T ≥ 1` the stride
equals `⌊R / T⌋` clamped to a minimum of 1, and in particular is never 0, so
the `read-position % stride` decision is always well defined. -/
theorem C2_stride_formula (R : ℚ) (T : ℕ) (hR : 0 < R) (_hT : 1 ≤ T) :
    frame_interval R T = (max ⌊R / (T : ℚ)⌋ 1).toNat ∧
      1 ≤ frame_interval R T :=
  ⟨frame_interval_eq_floor (le_of_lt hR), one_le_frame_interval R T⟩

/-- **C2 witness.** Nominal rate 30, target rate 4: stride `⌊30/4⌋ = 7`. -/
theorem C2_witness :
    (0 : ℚ) < ((30 : ℕ) : ℚ) ∧ frame_interval ((30 : ℕ) : ℚ) 4 = 7 := by
  refine ⟨by positivity, ?_⟩
  rw [(C2_stride_formula ((30 : ℕ) : ℚ) 4 (by positivity) (by omega)).1,
    Rat.floor_natCast_div_natCast]
  decide

unseal Rat.mul Rat.inv in
/-- **C3 counterexample.** A source that opens and reports the plainly
unusable frame rate −30 does *not* raise `unknownFrameRate` (the source tests
`fps == 0` only): the call succeeds, extracting every frame.  This refutes
the claimed "if and only if … zero or otherwise unusable (e.g. negative)". -/
theorem C3_counterexample :
    (extract_frames ⟨true, -30, [5]⟩ "o" 1 wrOk).result = Except.ok 1 := by
  decide

/-- **C3 (amended).** `unreadableSource` is raised iff the source does not
open; `unknownFrameRate` is raised iff the source opens and the reported rate
is *exactly* zero (a negative rate is accepted); under `T ≥ 1` and no
write-step exception, no other error kind occurs. -/
theorem C3_error_taxonomy (src : Source) (out : String) (T : ℕ)
    (wr : ℕ → WriteOutcome) (hT : 1 ≤ T) (hwr : ∀ j, wr j ≠ WriteOutcome.raised) :
    ((extract_frames src out T wr).result = Except.error Err.unreadableSource ↔
        src.opens = false) ∧
      ((extract_frames src out T wr).result = Except.error Err.unknownFrameRate ↔
        src.opens = true ∧ src.fps = 0) ∧
      (∀ e, (extract_frames src out T wr).result = Except.error e →
        e = Err.unreadableSource ∨ e = Err.unknownFrameRate) := by
  have hT0 : T ≠ 0 := by omega
  by_cases ho : src.opens = false
  · rw [extract_frames, if_pos ho]
    refine ⟨by simp [ho], by simp [ho], ?_⟩
    intro e he
    replace he : (Except.error Err.unreadableSource : Except Err ℕ) = Except.error e := he
    exact Or.inl (Except.error.inj he).symm
  · have ho1 : src.opens = true := by
      cases h : src.opens
      · exact absurd h ho
      · rfl
    by_cases hf : src.fps = 0
    · rw [extract_frames, if_neg ho, if_pos hf]
      refine ⟨by simp [ho1], by simp [ho1, hf], ?_⟩
      intro e he
      replace he : (Except.error Err.unknownFrameRate : Except Err ℕ) = Except.error e := he
      exact Or.inr (Except.error.inj he).symm
    · have hres := @extract_result_ok src out T wr ho1 hf hT0 hwr
      refine ⟨by simp [hres, ho1], by simp [hres, hf], ?_⟩
      intro e he
      rw [hres] at he
      exact Except.noConfusion he

/-- **C3 witness** (for the amended taxonomy): a source that does not open
yields exactly `unreadableSource`. -/
theorem C3_witness :
    (extract_frames ⟨false, ((30 : ℕ) : ℚ), []⟩ "o" 1 wrOk).result =
      Except.error Err.unreadableSource :=
  (C3_error_taxonomy ⟨false, ((30 : ℕ) : ℚ), []⟩ "o" 1 wrOk (by omega)
    wrOk_ne_raised).1.mpr rfl

/-- **C4.** On either of the two defined error outcomes the call has had no
side effect: no directory creation, no write attempt, no file persisted. -/
theorem C4_no_side_effects_on_error (src : Source) (out : String) (T : ℕ)
    (wr : ℕ → WriteOutcome)
    (h : (extract_frames src out T wr).result = Except.error Err.unreadableSource ∨
      (extract_frames src out T wr).result = Except.error Err.unknownFrameRate) :
    Event.makedirs ∉ (extract_frames src out T wr).events ∧
      (∀ p d, Event.writeAttempt p d ∉ (extract_frames src out T wr).events) ∧
      (extract_frames src out T wr).files = [] := by
  have hclean : (extract_frames src out T wr).events = [] ∧
      (extract_frames src out T wr).files = [] := by
    rcases h with h | h
    · exact extract_error_clean (by decide) h
    · exact extract_error_clean (by decide) h
  rw [hclean.1]
  exact ⟨by simp, fun p d => by simp, hclean.2⟩

/-- **C4 witness.** A source reporting rate 0: `unknownFrameRate`, and no
directory-creation event was recorded. -/
theorem C4_witness :
    (extract_frames ⟨true, 0, [1, 2]⟩ "o" 1 wrOk).result =
        Except.error Err.unknownFrameRate ∧
      Event.makedirs ∉ (extract_frames ⟨true, 0, [1, 2]⟩ "o" 1 wrOk).events :=
  ⟨by decide,
    (C4_no_side_effects_on_error ⟨true, 0, [1, 2]⟩ "o" 1 wrOk (Or.inr (by decide))).1⟩

/-- **C5 counterexample.** A source whose handle is acquired (it opens) but
which reports rate 0: the call raises `unknownFrameRate` and the trace
contains no `release` — the source has no try/finally, so `cap.release()` on
line 48 is skipped.  This refutes "releases the handle … including the error
path where the frame-rate check fails". -/
theorem C5_counterexample :
    (extract_frames ⟨true, 0, [1]⟩ "o" 1 wrOk).result =
        Except.error Err.unknownFrameRate ∧
      Event.release ∉ (extract_frames ⟨true, 0, [1]⟩ "o" 1 wrOk).events := by
  decide

/-- **C5 (amended).** The handle is released exactly on the normal-return
path: `release` appears in the trace iff the call returns a count.  On the
`unknownFrameRate` path and on a write-exception abort, no release happens. -/
theorem C5_release_iff_normal_return (src : Source) (out : String) (T : ℕ)
    (wr : ℕ → WriteOutcome) :
    Event.release ∈ (extract_frames src out T wr).events ↔
      ∃ k, (extract_frames src out T wr).result = Except.ok k :=
  extract_release_iff src out T wr

/-- **C10.** Violating the precondition with `target_rate = 0` on a source
that opens with a nonzero reported rate raises the division-by-zero error
during stride computation, before the directory is created and before any
frame is read or written. -/
theorem C10_zero_target_rate (src : Source) (out : String) (wr : ℕ → WriteOutcome)
    (h1 : src.opens = true) (hf : src.fps ≠ 0) :
    (extract_frames src out 0 wr).result = Except.error Err.zeroDivision ∧
      Event.makedirs ∉ (extract_frames src out 0 wr).events ∧
      (∀ i, Event.readFrame i ∉ (extract_frames src out 0 wr).events) ∧
      (∀ p d, Event.writeAttempt p d ∉ (extract_frames src out 0 wr).events) ∧
      (extract_frames src out 0 wr).files = [] := by
  have hgoal : extract_frames src out 0 wr =
      ⟨Except.error Err.zeroDivision, [], []⟩ := by
    rw [extract_frames, if_neg (by simp [h1]), if_neg hf, if_pos rfl]
  rw [hgoal]
  exact ⟨rfl, by simp, fun i => by simp, fun p d => by simp, rfl⟩

/-- **C10 witness.** Nominal rate 30, target rate 0: `ZeroDivisionError`
with an empty trace. -/
theorem C10_witness :
    (extract_frames ⟨true, ((30 : ℕ) : ℚ), [1]⟩ "o" 0 wrOk).result =
        Except.error Err.zeroDivision ∧
      Event.makedirs ∉ (extract_frames ⟨true, ((30 : ℕ) : ℚ), [1]⟩ "o" 0 wrOk).events :=
  ⟨(C10_zero_target_rate ⟨true, ((30 : ℕ) : ℚ), [1]⟩ "o" wrOk rfl
      (Nat.cast_ne_zero.2 (by omega))).1,
    (C10_zero_target_rate ⟨true, ((30 : ℕ) : ℚ), [1]⟩ "o" wrOk rfl
      (Nat.cast_ne_zero.2 (by omega))).2.1⟩

/-- **C6 counterexample.** A run saving 10001 frames (nominal rate 1, target
rate 1, 10001 frames): the file written at temporal position 10000
(`frame_10000.jpg`) sorts lexically *before* the one written at position 9999
(`frame_9999.jpg`), because the index outgrew the 4-digit zero padding.  This
refutes "lexical sort order equals temporal order … for every saved_count
including counts greater than 10000". -/
theorem C6_counterexample :
    ((extract_frames ⟨true, ((1 : ℕ) : ℚ), List.replicate 10001 0⟩ "o" 1 wrOk).files.map
        Prod.fst).getD 10000 "" <
      ((extract_frames ⟨true, ((1 : ℕ) : ℚ), List.replicate 10001 0⟩ "o" 1 wrOk).files.map
        Prod.fst).getD 9999 "" ∧
      (extract_frames ⟨true, ((1 : ℕ) : ℚ), List.replicate 10001 0⟩ "o" 1 wrOk).result =
        Except.ok 10001 := by
  have h2 : ((1 : ℕ) : ℚ) ≠ 0 := Nat.cast_ne_zero.2 (by omega)
  have hfi1 : frame_interval ((1 : ℕ) : ℚ) 1 = 1 := by
    rw [frame_interval_natCast]
    decide
  have hcount : countKept (frame_interval ((1 : ℕ) : ℚ) 1)
      (List.replicate 10001 (0 : ℕ)).length 0 = 10001 := by
    rw [hfi1, List.length_replicate, countKept_eq_ceil (by omega)]
  have hnames := @extract_files_fst ⟨true, ((1 : ℕ) : ℚ), List.replicate 10001 0⟩ "o" 1
    rfl h2 (by omega)
  have hres := @extract_result_ok ⟨true, ((1 : ℕ) : ℚ), List.replicate 10001 0⟩ "o" 1
    wrOk rfl h2 (by omega) wrOk_ne_raised
  dsimp only at hnames hres
  rw [hcount] at hnames hres
  have hget : ∀ i : ℕ, i < 10001 →
      ((List.range 10001).map (fun k => joinPath "o" (frameName k))).getD i "" =
        joinPath "o" (frameName i) := by
    intro i hi
    rw [List.getD_eq_getElem?_getD, List.getElem?_map, List.getElem?_range hi]
    rfl
  refine ⟨?_, hres⟩
  rw [hnames, hget 10000 (by omega), hget 9999 (by omega),
    String.lt_iff_toList_lt]
  show List.Lex (· < ·) (joinPath "o" (frameName 10000)).data
    (joinPath "o" (frameName 9999)).data
  decide

/-- **C6 (amended).** For every successful extraction the saved files are
named `frame_` + zero-padded saved-index (minimum 4 digits, width growing
past 9999; `frameName`/`pad4` embed the f-string of line 42) + `.jpg`, joined
to the output directory, in saved order; and the lexical sort order of those
names equals the temporal order of extraction whenever `saved_count ≤ 10000`
(beyond that the 4-digit padding overflows and the order breaks, see the
counterexample). -/
theorem C6_naming_and_order (src : Source) (out : String) (T : ℕ)
    (h1 : src.opens = true) (hR : 0 < src.fps) (hT : 1 ≤ T) :
    ∃ m, (extract_frames src out T wrOk).result = Except.ok m ∧
      (extract_frames src out T wrOk).files.map Prod.fst =
        (List.range m).map (fun k => joinPath out (frameName k)) ∧
      (m ≤ 10000 →
        ((extract_frames src out T wrOk).files.map Prod.fst).Pairwise (· < ·)) := by
  have hf0 : src.fps ≠ 0 := ne_of_gt hR
  have hT0 : T ≠ 0 := by omega
  refine ⟨countKept (frame_interval src.fps T) src.frames.length 0,
    extract_result_ok h1 hf0 hT0 wrOk_ne_raised, extract_files_fst h1 hf0 hT0, ?_⟩
  intro hm
  rw [extract_files_fst h1 hf0 hT0]
  exact names_pairwise out hm

unseal Rat.mul Rat.inv in
/-- **C6 witness.** Nominal rate 2, target rate 1, 3 frames: two files,
`o/frame_0000.jpg` then `o/frame_0001.jpg`, lexically sorted. -/
theorem C6_witness :
    ((extract_frames ⟨true, ((2 : ℕ) : ℚ), [9, 8, 7]⟩ "o" 1 wrOk).files.map
        Prod.fst).Pairwise (· < ·) ∧
      (extract_frames ⟨true, ((2 : ℕ) : ℚ), [9, 8, 7]⟩ "o" 1 wrOk).files.map Prod.fst =
        ["o/frame_0000.jpg", "o/frame_0001.jpg"] := by
  obtain ⟨m, hres, hnames, hpw⟩ := C6_naming_and_order ⟨true, ((2 : ℕ) : ℚ), [9, 8, 7]⟩
    "o" 1 rfl (by positivity) (by omega)
  have hcomp : (extract_frames ⟨true, ((2 : ℕ) : ℚ), [9, 8, 7]⟩ "o" 1 wrOk).result =
      Except.ok 2 := by decide
  have hm : m = 2 := Except.ok.inj (hres.symm.trans hcomp)
  refine ⟨hpw (by omega), ?_⟩
  rw [hnames, hm]
  decide

unseal Rat.mul Rat.inv in
/-- **C7 counterexample.** A run in which the single write fails by returning
`false` (nothing is persisted): the failure is swallowed — the call still
returns `saved_count = 1`, counting a frame whose write did not succeed (the
source discards `cv2.imwrite`'s boolean result on line 43). -/
theorem C7_counterexample :
    (extract_frames ⟨true, ((1 : ℕ) : ℚ), [7]⟩ "o" 1
        (fun _ => WriteOutcome.retFalse)).result = Except.ok 1 ∧
      (extract_frames ⟨true, ((1 : ℕ) : ℚ), [7]⟩ "o" 1
        (fun _ => WriteOutcome.retFalse)).files = [] := by
  decide

/-- **C7 (amended).** An I/O failure that surfaces as an exception during the
per-frame write step does propagate (the loop has no handler): with a raising
writer the call aborts with `writeErr`.  But a write failure reported only
through the writer's boolean return value is ignored: for any non-raising
writer the returned count is the full kept-position count, regardless of
which writes actually succeeded. -/
theorem C7_write_failure_propagation (src : Source) (out : String) (T : ℕ)
    (h1 : src.opens = true) (hR : src.fps ≠ 0) (hT : 1 ≤ T)
    (hne : src.frames ≠ []) :
    (extract_frames src out T (fun _ => WriteOutcome.raised)).result =
        Except.error Err.writeErr ∧
      ∀ wr : ℕ → WriteOutcome, (∀ j, wr j ≠ WriteOutcome.raised) →
        (extract_frames src out T wr).result =
          Except.ok (countKept (frame_interval src.fps T) src.frames.length 0) := by
  have hT0 : T ≠ 0 := by omega
  constructor
  · rw [extract_frames_loop_case h1 hR hT0]
    show (runLoop out (frame_interval src.fps T) (fun _ => WriteOutcome.raised)
      src.frames 0 0).2.2 = _
    obtain ⟨f, rest, hfr⟩ := List.exists_cons_of_ne_nil hne
    rw [hfr, runLoop, if_pos (Nat.zero_mod _)]
  · intro wr hwr
    exact extract_result_ok h1 hR hT0 hwr

unseal Rat.mul Rat.inv in
/-- **C7 witness.** Two frames, nominal rate 1, target rate 1: a raising
writer aborts with `writeErr`; an always-succeeding writer returns 2. -/
theorem C7_witness :
    (extract_frames ⟨true, ((1 : ℕ) : ℚ), [7, 8]⟩ "o" 1
        (fun _ => WriteOutcome.raised)).result = Except.error Err.writeErr ∧
      (extract_frames ⟨true, ((1 : ℕ) : ℚ), [7, 8]⟩ "o" 1 wrOk).result =
        Except.ok 2 := by
  refine ⟨(C7_write_failure_propagation ⟨true, ((1 : ℕ) : ℚ), [7, 8]⟩ "o" 1 rfl
    (Nat.cast_ne_zero.2 (by omega)) (by omega) (by simp)).1, by decide⟩

/-- **C8.** When the target rate is at least the nominal rate (`T ≥ R > 0`,
`T ≥ 1`), the stride is 1 and every decoded frame is saved:
`saved_count = total_frames`. -/
theorem C8_stride_one_keeps_all (src : Source) (out : String) (T : ℕ)
    (h1 : src.opens = true) (hR : 0 < src.fps) (hT : 1 ≤ T)
    (hge : src.fps ≤ (T : ℚ)) :
    frame_interval src.fps T = 1 ∧
      (extract_frames src out T wrOk).result = Except.ok src.frames.length := by
  have hfi := frame_interval_eq_one hR hge
  refine ⟨hfi, ?_⟩
  rw [extract_result_ok h1 (ne_of_gt hR) (by omega) wrOk_ne_raised, hfi,
    countKept_eq_ceil (by omega)]
  exact congrArg Except.ok (by omega)

/-- **C8 witness.** Nominal rate 24, target rate 30, 5 frames: stride 1 and
all 5 frames saved. -/
theorem C8_witness :
    frame_interval ((24 : ℕ) : ℚ) 30 = 1 ∧
      (extract_frames ⟨true, ((24 : ℕ) : ℚ), [1, 2, 3, 4, 5]⟩ "o" 30 wrOk).result =
        Except.ok 5 := by
  obtain ⟨hfi, hres⟩ := C8_stride_one_keeps_all ⟨true, ((24 : ℕ) : ℚ), [1, 2, 3, 4, 5]⟩
    "o" 30 rfl (by positivity) (by omega) (Nat.cast_le.2 (by omega))
  exact ⟨hfi, hres⟩

/-- **C9.** Naming and count are deterministic functions of the source's
shape: two runs over sources that agree on openability, reported frame rate
and number of frames — even with different frame contents — and with the
same target rate and output directory, produce identical filename lists and
the same returned result. -/
theorem C9_output_depends_only_on_shape (s1 s2 : Source) (out : String) (T : ℕ)
    (hop : s1.opens = s2.opens) (hfps : s1.fps = s2.fps)
    (hlen : s1.frames.length = s2.frames.length) :
    (extract_frames s1 out T wrOk).result = (extract_frames s2 out T wrOk).result ∧
      (extract_frames s1 out T wrOk).files.map Prod.fst =
        (extract_frames s2 out T wrOk).files.map Prod.fst := by
  by_cases ho : s1.opens = false
  · have ho2 : s2.opens = false := by rw [← hop]; exact ho
    rw [extract_not_opened ho, extract_not_opened ho2]
    exact ⟨rfl, rfl⟩
  · have ho1 : s1.opens = true := by
      cases h : s1.opens
      · exact absurd h ho
      · rfl
    have ho2 : s2.opens = true := by rw [← hop]; exact ho1
    by_cases hf : s1.fps = 0
    · have hf2 : s2.fps = 0 := by rw [← hfps]; exact hf
      rw [extract_zero_fps ho1 hf, extract_zero_fps ho2 hf2]
      exact ⟨rfl, rfl⟩
    · have hf2 : s2.fps ≠ 0 := by rw [← hfps]; exact hf
      by_cases hT0 : T = 0
      · subst hT0
        rw [extract_zero_target ho1 hf, extract_zero_target ho2 hf2]
        exact ⟨rfl, rfl⟩
      · constructor
        · rw [extract_result_ok ho1 hf hT0 wrOk_ne_raised,
            extract_result_ok ho2 hf2 hT0 wrOk_ne_raised, hfps, hlen]
        · rw [extract_files_fst ho1 hf hT0, extract_files_fst ho2 hf2 hT0, hfps, hlen]

/-- **C9 witness.** Same rate (2), same frame count (3), different frame
data: identical filename lists and results. -/
theorem C9_witness :
    (extract_frames ⟨true, ((2 : ℕ) : ℚ), [1, 2, 3]⟩ "o" 1 wrOk).files.map Prod.fst =
        (extract_frames ⟨true, ((2 : ℕ) : ℚ), [9, 9, 9]⟩ "o" 1 wrOk).files.map
          Prod.fst ∧
      (extract_frames ⟨true, ((2 : ℕ) : ℚ), [1, 2, 3]⟩ "o" 1 wrOk).result =
        (extract_frames ⟨true, ((2 : ℕ) : ℚ), [9, 9, 9]⟩ "o" 1 wrOk).result := by
  obtain ⟨hres, hnames⟩ := C9_output_depends_only_on_shape
    ⟨true, ((2 : ℕ) : ℚ), [1, 2, 3]⟩ ⟨true, ((2 : ℕ) : ℚ), [9, 9, 9]⟩ "o" 1 rfl rfl rfl
  exact ⟨hnames, hres⟩

end FrameExtractor
